import Mathlib

/-!
Shallow embedding of the snake-game simulation engine from src/main.rs.

Coordinates in the source are u16; here they are Nat, with the saturating
arithmetic of u16 made explicit (addition capped at 65535, subtraction
capped at 0, which is what Nat subtraction already does).  The HashSet in
LookupPointQueue is modelled by a Finset.  The thread random generator is
modelled by explicit draw values threaded into the functions that sample;
gen_range lo hi s maps a draw s into the half-open range lo..hi exactly as
rand does on a nonempty range (its support over all draws is lo..hi-1).
Rendering, key polling and sleeping are I/O and play no part in the claims;
the game loop body from line 219 to line 235 of main.rs is embedded as the
tick function below.
-/

/-- A grid coordinate, the Rust pair (u16, u16). -/
abbrev Cell := Nat × Nat

/-- Numeric maximum of the u16 coordinate type. -/
def U16_MAX : Nat := 65535

/-- u16 saturating_add 1. -/
def satAdd1 (a : Nat) : Nat := min (a + 1) U16_MAX

/-- u16 saturating_sub 1 (Nat subtraction already saturates at zero). -/
def satSub1 (a : Nat) : Nat := a - 1

/-- The Direction enum of main.rs. -/
inductive Direction : Type
  | UP
  | DOWN
  | LEFT
  | RIGHT
deriving DecidableEq, Repr

/-- get_next_point of main.rs: advance a point one step in a direction with
u16 saturating arithmetic. -/
def get_next_point (point : Cell) (direction : Direction) : Cell :=
  match direction with
  | Direction.RIGHT => (satAdd1 point.1, point.2)
  | Direction.LEFT => (satSub1 point.1, point.2)
  | Direction.DOWN => (point.1, satAdd1 point.2)
  | Direction.UP => (point.1, satSub1 point.2)

/-- LookupPointQueue of main.rs: an ordered Vec of points together with a
HashSet of the same points (here a Finset). -/
structure LookupPointQueue : Type where
  vec : List Cell
  hash : Finset Cell
deriving DecidableEq

/-- LookupPointQueue::new: clone the vector and insert every point into the
hash set. -/
def LookupPointQueue.new (points : List Cell) : LookupPointQueue :=
  { vec := points, hash := points.toFinset }

/-- LookupPointQueue::lookup: membership in the hash set. -/
def LookupPointQueue.lookup (q : LookupPointQueue) (point : Cell) : Bool :=
  decide (point ∈ q.hash)

/-- LookupPointQueue::head: first element of the vector, if any. -/
def LookupPointQueue.head (q : LookupPointQueue) : Option Cell :=
  q.vec.head?

/-- LookupPointQueue::push: insert at index 0 of the vector and into the
hash set. -/
def LookupPointQueue.push (q : LookupPointQueue) (point : Cell) : LookupPointQueue :=
  { vec := point :: q.vec, hash := insert point q.hash }

/-- LookupPointQueue::pop: Vec::pop removes the LAST element; when one was
removed it is also removed from the hash set.  Returns the removed element
and the new queue. -/
def LookupPointQueue.pop (q : LookupPointQueue) : Option Cell × LookupPointQueue :=
  match q.vec.getLast? with
  | none => (none, q)
  | some p => (some p, { vec := q.vec.dropLast, hash := q.hash.erase p })

/-- SnakeState of main.rs. -/
structure SnakeState : Type where
  lq : LookupPointQueue
deriving DecidableEq

/-- CollisionDetector for SnakeState: hash-set membership. -/
def SnakeState.has_collision (s : SnakeState) (point : Cell) : Bool :=
  s.lq.lookup point

/-- GameArea of main.rs: the two corners of the bounding rectangle. -/
structure GameArea : Type where
  «from» : Cell
  «to» : Cell
deriving DecidableEq

/-- CollisionDetector for GameArea, main.rs lines 75-82: a point collides
iff it is on or beyond the rectangle boundary. -/
def GameArea.has_collision (a : GameArea) (point : Cell) : Bool :=
  decide (point.1 ≤ a.«from».1) || decide (point.1 ≥ a.«to».1)
    || decide (point.2 ≤ a.«from».2) || decide (point.2 ≥ a.«to».2)

/-- FoodState of main.rs. -/
structure FoodState : Type where
  lq : LookupPointQueue
deriving DecidableEq

/-- CollisionDetector for FoodState: hash-set membership. -/
def FoodState.has_collision (f : FoodState) (point : Cell) : Bool :=
  f.lq.lookup point

/-- Model of rand gen_range on the half-open range lo..hi, the draw of the
thread rng being the explicit value s: the result is lo + s % (hi - lo),
whose support over all s is exactly the set lo..hi-1 that gen_range samples
from.  (rand panics on an empty range; the model is only used where the
range is nonempty.) -/
def gen_range (lo hi : Nat) (s : Nat) : Nat := lo + s % (hi - lo)

/-- The food sampling expression of main.rs (lines 169-172 and 229-232): one
gen_range draw per axis over from+1 .. to-1, with NO rejection against the
snake body, the area or the existing food. -/
def spawnFoodPoint (a : GameArea) (s t : Nat) : Cell :=
  (gen_range (a.«from».1 + 1) (a.«to».1 - 1) s,
   gen_range (a.«from».2 + 1) (a.«to».2 - 1) t)

/-- The mutable aggregate owned by the game loop: area, snake and food. -/
structure GameState : Type where
  area : GameArea
  snake : SnakeState
  food : FoodState
deriving DecidableEq

/-- Why the loop in main.rs breaks: which collision check fired. -/
inductive BreakReason : Type
  | SelfCollision
  | WallCollision
deriving DecidableEq, Repr

/-- Result of one pass of the loop body: either the loop breaks (carrying
the state left untouched at the break) or it continues with the new state. -/
inductive TickResult : Type
  | terminated : BreakReason → GameState → TickResult
  | running : GameState → TickResult
deriving DecidableEq

/-- The candidate next head cell of main.rs line 219:
get_next_point(snake.lq.head().unwrap_or(&area.from), &direction). -/
def nextPoint (st : GameState) (direction : Direction) : Cell :=
  get_next_point (st.snake.lq.head.getD st.area.«from») direction

/-- One pass of the game loop body, main.rs lines 219-235: compute the next
head; break on self collision; break on wall collision; push the head; if
the head hit the food, pop the food cell and push a freshly sampled one
(draws s and t), otherwise pop the snake tail. -/
def tick (st : GameState) (direction : Direction) (s t : Nat) : TickResult :=
  let next := nextPoint st direction
  if st.snake.has_collision next then
    TickResult.terminated BreakReason.SelfCollision st
  else if st.area.has_collision next then
    TickResult.terminated BreakReason.WallCollision st
  else
    let snake1 : SnakeState := { lq := st.snake.lq.push next }
    if st.food.has_collision next then
      let food1 : FoodState :=
        { lq := (st.food.lq.pop).2.push (spawnFoodPoint st.area s t) }
      TickResult.running { st with snake := snake1, food := food1 }
    else
      TickResult.running { st with snake := { lq := (snake1.lq.pop).2 } }

/-- The initial snake of main.rs lines 166-168: one seed cell just inside
the top-left corner of the area. -/
def initSnake (a : GameArea) : SnakeState :=
  { lq := LookupPointQueue.new [(a.«from».1 + 1, a.«from».2 + 1)] }

/-- The initial game state of main.rs lines 161-176: the seed snake and one
food cell sampled with draws s and t. -/
def initState (a : GameArea) (s t : Nat) : GameState :=
  { area := a
    snake := initSnake a
    food := { lq := LookupPointQueue.new [spawnFoodPoint a s t] } }

/-- The states the game loop can reach: the initial state (for any rng
draws), closed under ticks that keep running (each tick with an arbitrary
current direction and arbitrary rng draws, since the direction is read from
the keyboard between ticks). -/
inductive Reachable (a : GameArea) : GameState → Prop
  | init (s t : Nat) : Reachable a (initState a s t)
  | step {st st' : GameState} (d : Direction) (s t : Nat) :
      Reachable a st → tick st d s t = TickResult.running st' → Reachable a st'

/-- The state after an ordinary move (main.rs lines 226 and 234): push the
next head onto the snake, then pop the snake tail. -/
def moveStep (st : GameState) (next : Cell) : GameState :=
  { st with snake := { lq := ((st.snake.lq.push next).pop).2 } }

/-- The state after food consumption (main.rs lines 226-232): push the next
head onto the snake, pop the food cell and push a fresh sample taken with
draws s and t. -/
def growStep (st : GameState) (next : Cell) (s t : Nat) : GameState :=
  { st with
      snake := { lq := st.snake.lq.push next }
      food := { lq := (st.food.lq.pop).2.push (spawnFoodPoint st.area s t) } }

/-- The head cell after advancing once per direction in a list: the fold of
get_next_point. -/
def advanceN (p : Cell) (ds : List Direction) : Cell :=
  ds.foldl get_next_point p

/-- Run the loop body over a list of per-tick inputs (direction and the two
rng draws a tick may use); none as soon as a tick breaks the loop. -/
def runTicks : GameState → List (Direction × Nat × Nat) → Option GameState
  | st, [] => some st
  | st, (d, s, t) :: rest =>
    match tick st d s t with
    | TickResult.running st' => runTicks st' rest
    | TickResult.terminated _ _ => none

/-- A run of per-tick inputs is quiet when at every tick the candidate next
head hits neither the snake, nor the wall, nor the food (so every tick is
an ordinary move). -/
def quietRun : GameState → List (Direction × Nat × Nat) → Bool
  | _, [] => true
  | st, (d, _, _) :: rest =>
    !st.snake.has_collision (nextPoint st d) &&
    !st.area.has_collision (nextPoint st d) &&
    !st.food.has_collision (nextPoint st d) &&
    quietRun (moveStep st (nextPoint st d)) rest

/-- A concrete 10 by 10 area used for witnesses and failing inputs. -/
def A0 : GameArea := { «from» := (0, 0), «to» := (10, 10) }

/-- A running state whose snake bites itself on the next UP step: head at
(5, 5), second segment at (5, 4). -/
def ST2 : GameState :=
  { area := A0
    snake := { lq := LookupPointQueue.new [(5, 5), (5, 4)] }
    food := { lq := LookupPointQueue.new [(8, 8)] } }

/-- A running state whose snake steps onto the wall cell (10, 5) on the
next RIGHT step (10 is the x of the right boundary of A0). -/
def ST6 : GameState :=
  { area := A0
    snake := { lq := LookupPointQueue.new [(9, 5)] }
    food := { lq := LookupPointQueue.new [(3, 3)] } }

/-- Intermediate state of the C3 failing trajectory: one move after
initState A0 0 3 going DOWN. -/
def St1 : GameState :=
  { area := A0
    snake := { lq := LookupPointQueue.new [(1, 2)] }
    food := { lq := LookupPointQueue.new [(1, 4)] } }

/-- Pre-tick state of the C3 failing trajectory: two moves after
initState A0 0 3 going DOWN, head one step above the food at (1, 4). -/
def S3pre : GameState :=
  { area := A0
    snake := { lq := LookupPointQueue.new [(1, 3)] }
    food := { lq := LookupPointQueue.new [(1, 4)] } }

/-- Post-tick state of the C3 failing trajectory: the snake has grown onto
(1, 4) and the respawned food landed on the very same cell (1, 4). -/
def S3post : GameState :=
  { area := A0
    snake := { lq := LookupPointQueue.new [(1, 4), (1, 3)] }
    food := { lq := LookupPointQueue.new [(1, 4)] } }

lemma tick_of_self {st : GameState} {d : Direction} (s t : Nat)
    (h : st.snake.has_collision (nextPoint st d) = true) :
    tick st d s t = TickResult.terminated BreakReason.SelfCollision st := by
  simp [tick, h]

lemma tick_of_wall {st : GameState} {d : Direction} (s t : Nat)
    (h1 : st.snake.has_collision (nextPoint st d) = false)
    (h2 : st.area.has_collision (nextPoint st d) = true) :
    tick st d s t = TickResult.terminated BreakReason.WallCollision st := by
  simp [tick, h1, h2]

lemma tick_of_food {st : GameState} {d : Direction} (s t : Nat)
    (h1 : st.snake.has_collision (nextPoint st d) = false)
    (h2 : st.area.has_collision (nextPoint st d) = false)
    (h3 : st.food.has_collision (nextPoint st d) = true) :
    tick st d s t = TickResult.running (growStep st (nextPoint st d) s t) := by
  simp [tick, growStep, h1, h2, h3]

lemma tick_of_move {st : GameState} {d : Direction} (s t : Nat)
    (h1 : st.snake.has_collision (nextPoint st d) = false)
    (h2 : st.area.has_collision (nextPoint st d) = false)
    (h3 : st.food.has_collision (nextPoint st d) = false) :
    tick st d s t = TickResult.running (moveStep st (nextPoint st d)) := by
  simp [tick, moveStep, h1, h2, h3]

/-- Erasing the last element of a duplicate-free list from its Finset of
elements leaves the Finset of elements of its dropLast. -/
lemma toFinset_erase_getLast {l : List Cell} {x : Cell} (h : l.getLast? = some x)
    (hnd : l.Nodup) : l.toFinset.erase x = l.dropLast.toFinset := by
  induction l with
  | nil => simp at h
  | cons a l ih =>
    cases l with
    | nil =>
      simp only [List.getLast?_singleton, Option.some.injEq] at h
      subst h
      simp
    | cons b l2 =>
      rw [List.getLast?_cons_cons] at h
      have hx : x ∈ b :: l2 := List.mem_of_getLast?_eq_some h
      have hna : a ∉ b :: l2 := (List.nodup_cons.mp hnd).1
      have hax : a ≠ x := fun he => hna (he ▸ hx)
      have hnd2 : (b :: l2).Nodup := (List.nodup_cons.mp hnd).2
      rw [List.toFinset_cons, Finset.erase_insert_of_ne hax, ih h hnd2,
        List.dropLast_cons₂, List.toFinset_cons]

/-- The structural invariant the loop maintains at every tick boundary: the
snake vector has no duplicates, the snake hash mirrors the vector, the
snake is nonempty, and the food is a single cell mirrored by its hash. -/
def StateInv (st : GameState) : Prop :=
  st.snake.lq.vec.Nodup ∧
  st.snake.lq.hash = st.snake.lq.vec.toFinset ∧
  st.snake.lq.vec ≠ [] ∧
  ∃ c : Cell, st.food.lq.vec = [c] ∧ st.food.lq.hash = {c}

lemma stateInv_init (a : GameArea) (s t : Nat) : StateInv (initState a s t) := by
  refine ⟨?_, ?_, ?_, ⟨spawnFoodPoint a s t, ?_, ?_⟩⟩ <;>
    simp [initState, initSnake, LookupPointQueue.new]

lemma stateInv_step {st st' : GameState} {d : Direction} {s t : Nat}
    (hinv : StateInv st) (h : tick st d s t = TickResult.running st') :
    StateInv st' := by
  obtain ⟨hnd, hh, hne, c, hfv, hfh⟩ := hinv
  cases h1 : st.snake.has_collision (nextPoint st d) with
  | true => rw [tick_of_self s t h1] at h; cases h
  | false =>
  cases h2 : st.area.has_collision (nextPoint st d) with
  | true => rw [tick_of_wall s t h1 h2] at h; cases h
  | false =>
  have hmem : nextPoint st d ∉ st.snake.lq.vec := by
    intro hm
    have : st.snake.has_collision (nextPoint st d) = true := by
      simp [SnakeState.has_collision, LookupPointQueue.lookup, hh, hm]
    rw [h1] at this
    cases this
  cases h3 : st.food.has_collision (nextPoint st d) with
  | true =>
    rw [tick_of_food s t h1 h2 h3] at h
    cases h
    refine ⟨?_, ?_, ?_, ⟨spawnFoodPoint st.area s t, ?_, ?_⟩⟩
    · exact List.nodup_cons.mpr ⟨hmem, hnd⟩
    · simp [growStep, LookupPointQueue.push, hh]
    · simp [growStep, LookupPointQueue.push]
    · simp [growStep, LookupPointQueue.push, LookupPointQueue.pop, hfv]
    · simp [growStep, LookupPointQueue.push, LookupPointQueue.pop, hfv, hfh]
  | false =>
    rw [tick_of_move s t h1 h2 h3] at h
    cases h
    have hcons : (nextPoint st d :: st.snake.lq.vec).Nodup :=
      List.nodup_cons.mpr ⟨hmem, hnd⟩
    cases hL : (nextPoint st d :: st.snake.lq.vec).getLast? with
    | none => simp at hL
    | some p =>
      refine ⟨?_, ?_, ?_, ⟨c, ?_, ?_⟩⟩
      · have : (nextPoint st d :: st.snake.lq.vec).dropLast.Nodup :=
          hcons.sublist (List.dropLast_sublist _)
        simpa [moveStep, LookupPointQueue.push, LookupPointQueue.pop, hL] using this
      · have : (nextPoint st d :: st.snake.lq.vec).toFinset.erase p =
            (nextPoint st d :: st.snake.lq.vec).dropLast.toFinset :=
          toFinset_erase_getLast hL hcons
        simp only [moveStep, LookupPointQueue.push, LookupPointQueue.pop, hL]
        rw [hh]
        rw [← List.toFinset_cons]
        exact this
      · have hlen : (nextPoint st d :: st.snake.lq.vec).dropLast.length =
            st.snake.lq.vec.length := List.length_dropLast_cons _ _
        have hpos : 0 < st.snake.lq.vec.length := List.length_pos.mpr hne
        simp only [moveStep, LookupPointQueue.push, LookupPointQueue.pop, hL]
        exact List.ne_nil_of_length_pos (by rw [hlen]; exact hpos)
      · simpa [moveStep] using hfv
      · simpa [moveStep] using hfh

/-- Every reachable state satisfies the structural invariant. -/
lemma reachable_stateInv {a : GameArea} {st : GameState} (h : Reachable a st) :
    StateInv st := by
  induction h with
  | init s t => exact stateInv_init a s t
  | step d s t hr heq ih => exact stateInv_step ih heq

lemma pop_vec (q : LookupPointQueue) : (q.pop).2.vec = q.vec.dropLast := by
  unfold LookupPointQueue.pop
  cases hL : q.vec.getLast? with
  | none => simp [List.getLast?_eq_none_iff.mp hL]
  | some p => rfl

lemma moveStep_vec (st : GameState) (next : Cell) :
    (moveStep st next).snake.lq.vec = (next :: st.snake.lq.vec).dropLast := by
  simp [moveStep, LookupPointQueue.push, pop_vec]

lemma moveStep_length (st : GameState) (next : Cell) :
    (moveStep st next).snake.lq.vec.length = st.snake.lq.vec.length := by
  rw [moveStep_vec]
  exact List.length_dropLast_cons next st.snake.lq.vec

lemma moveStep_head {st : GameState} (next : Cell) (hne : st.snake.lq.vec ≠ []) :
    (moveStep st next).snake.lq.head = some next := by
  unfold LookupPointQueue.head
  rw [moveStep_vec]
  cases hv : st.snake.lq.vec with
  | nil => exact absurd hv hne
  | cons b l2 => simp [List.dropLast_cons₂]

lemma moveStep_area (st : GameState) (next : Cell) :
    (moveStep st next).area = st.area := rfl

/-- A quiet run never breaks, keeps the snake length, and carries the head
along the fold of get_next_point over the played directions. -/
lemma quietRun_spec (ds : List (Direction × Nat × Nat)) :
    ∀ st : GameState, st.snake.lq.vec ≠ [] → quietRun st ds = true →
    ∃ st' : GameState, runTicks st ds = some st' ∧
      st'.snake.lq.vec.length = st.snake.lq.vec.length ∧
      st'.snake.lq.head =
        some (advanceN (st.snake.lq.head.getD st.area.«from») (ds.map Prod.fst)) := by
  induction ds with
  | nil =>
    intro st hne hq
    refine ⟨st, rfl, rfl, ?_⟩
    cases hv : st.snake.lq.vec with
    | nil => exact absurd hv hne
    | cons b l2 => simp [advanceN, LookupPointQueue.head, hv]
  | cons dst rest ih =>
    obtain ⟨d, s, t⟩ := dst
    intro st hne hq
    simp only [quietRun, Bool.and_eq_true, Bool.not_eq_true'] at hq
    obtain ⟨⟨⟨h1, h2⟩, h3⟩, hq4⟩ := hq
    have htick : tick st d s t = TickResult.running (moveStep st (nextPoint st d)) :=
      tick_of_move s t h1 h2 h3
    have hne2 : (moveStep st (nextPoint st d)).snake.lq.vec ≠ [] := by
      apply List.ne_nil_of_length_pos
      rw [moveStep_length]
      exact List.length_pos.mpr hne
    obtain ⟨st', hrun, hlen, hhead⟩ := ih (moveStep st (nextPoint st d)) hne2 hq4
    refine ⟨st', ?_, ?_, ?_⟩
    · simp only [runTicks, htick]
      exact hrun
    · rw [hlen, moveStep_length]
    · rw [hhead]
      have hh2 : (moveStep st (nextPoint st d)).snake.lq.head = some (nextPoint st d) :=
        moveStep_head (nextPoint st d) hne
      rw [hh2]
      simp only [Option.getD_some, List.map_cons]
      rfl

/-- C1: the claim says every spawned Food cell avoids the Body and is
strictly interior.  The code has no rejection sampling at all: already the
initial spawn of main.rs lines 169-172 can land on the seed Body cell.  In
the reachable state initState A0 0 0 the spawned food cell (1, 1) is a
member of the snake hash set. -/
theorem C1_spawn_can_land_on_body :
    Reachable A0 (initState A0 0 0) ∧
    (initState A0 0 0).food.lq.vec = [(1, 1)] ∧
    ((1, 1) : Cell) ∈ (initState A0 0 0).snake.lq.hash :=
  ⟨Reachable.init 0 0, by decide, by decide⟩

/-- C2: whenever the candidate next head cell is in the snake hash set, the
tick terminates with SelfCollision and hands back the state untouched, so
the Body vector, the Body hash and the Food all equal their pre-tick
values.  Proved for every state, hence for every reachable Running
state. -/
theorem C2_self_collision_terminates (st : GameState) (d : Direction) (s t : Nat)
    (h : st.snake.has_collision (nextPoint st d) = true) :
    tick st d s t = TickResult.terminated BreakReason.SelfCollision st :=
  tick_of_self s t h

/-- Witness for C2: head (5, 5) stepping UP onto its own segment (5, 4). -/
theorem C2_self_collision_terminates_witness :
    ST2.snake.has_collision (nextPoint ST2 Direction.UP) = true ∧
    tick ST2 Direction.UP 0 0 = TickResult.terminated BreakReason.SelfCollision ST2 :=
  ⟨by decide, C2_self_collision_terminates ST2 Direction.UP 0 0 (by decide)⟩

/-- C3: the claim says a food tick grows the Body by one AND leaves a Food
cell distinct from the consumed one.  The growth part holds, but the
respawn of main.rs lines 229-232 draws with no rejection and can return
the consumed cell itself: on the reachable state S3pre, eating the food at
(1, 4) with draws 0 and 3 leaves Food = [(1, 4)] again. -/
theorem C3_respawn_can_equal_consumed :
    Reachable A0 S3pre ∧
    S3pre.food.lq.vec = [(1, 4)] ∧
    nextPoint S3pre Direction.DOWN = (1, 4) ∧
    tick S3pre Direction.DOWN 0 3 = TickResult.running S3post ∧
    S3post.snake.lq.vec.length = S3pre.snake.lq.vec.length + 1 ∧
    S3post.food.lq.vec = [(1, 4)] := by
  refine ⟨?_, by decide, by decide, by decide, by decide, by decide⟩
  exact Reachable.step Direction.DOWN 0 0
    (Reachable.step Direction.DOWN 0 0 (Reachable.init 0 3) (by decide) :
      Reachable A0 St1)
    (by decide)

/-- C4: GameArea.has_collision returns true exactly when the cell is on or
beyond the rectangle boundary: x ≤ from.x or x ≥ to.x or y ≤ from.y or
y ≥ to.y; in particular every boundary cell collides.  The embedded query
is a pure function of the area and the cell. -/
theorem C4_area_collision_iff (a : GameArea) (p : Cell) :
    a.has_collision p = true ↔
      (p.1 ≤ a.«from».1 ∨ p.1 ≥ a.«to».1 ∨ p.2 ≤ a.«from».2 ∨ p.2 ≥ a.«to».2) := by
  simp [GameArea.has_collision, or_assoc]

/-- C5: a quiet run (no candidate next head is food and none collides)
never breaks, keeps the Body length unchanged, and leaves the head at the
seed head folded through get_next_point once per direction; and
get_next_point saturates at 0 and at U16_MAX instead of wrapping. -/
theorem C5_quiet_run_determinism (st : GameState) (ds : List (Direction × Nat × Nat))
    (hne : st.snake.lq.vec ≠ []) (hq : quietRun st ds = true) :
    (∃ st' : GameState, runTicks st ds = some st' ∧
       st'.snake.lq.vec.length = st.snake.lq.vec.length ∧
       st'.snake.lq.head =
         some (advanceN (st.snake.lq.head.getD st.area.«from») (ds.map Prod.fst))) ∧
    get_next_point (0, 0) Direction.LEFT = (0, 0) ∧
    get_next_point (0, 0) Direction.UP = (0, 0) ∧
    get_next_point (U16_MAX, U16_MAX) Direction.RIGHT = (U16_MAX, U16_MAX) ∧
    get_next_point (U16_MAX, U16_MAX) Direction.DOWN = (U16_MAX, U16_MAX) := by
  refine ⟨quietRun_spec ds st hne hq, by decide, by decide, by decide, by decide⟩

/-- Witness for C5: two quiet DOWN ticks from the initial state in A0. -/
theorem C5_quiet_run_determinism_witness :
    ((initState A0 0 0).snake.lq.vec ≠ [] ∧
      quietRun (initState A0 0 0)
        [(Direction.DOWN, 0, 0), (Direction.DOWN, 0, 0)] = true) ∧
    ((∃ st' : GameState,
        runTicks (initState A0 0 0)
          [(Direction.DOWN, 0, 0), (Direction.DOWN, 0, 0)] = some st' ∧
        st'.snake.lq.vec.length = (initState A0 0 0).snake.lq.vec.length ∧
        st'.snake.lq.head =
          some (advanceN
            ((initState A0 0 0).snake.lq.head.getD (initState A0 0 0).area.«from»)
            ([(Direction.DOWN, 0, 0), (Direction.DOWN, 0, 0)].map Prod.fst))) ∧
      get_next_point (0, 0) Direction.LEFT = (0, 0) ∧
      get_next_point (0, 0) Direction.UP = (0, 0) ∧
      get_next_point (U16_MAX, U16_MAX) Direction.RIGHT = (U16_MAX, U16_MAX) ∧
      get_next_point (U16_MAX, U16_MAX) Direction.DOWN = (U16_MAX, U16_MAX)) :=
  ⟨⟨by decide, by decide⟩,
    C5_quiet_run_determinism (initState A0 0 0)
      [(Direction.DOWN, 0, 0), (Direction.DOWN, 0, 0)] (by decide) (by decide)⟩

/-- C6: when the candidate next head cell is no self collision but does
collide with the area, the tick terminates with WallCollision and hands
back the state untouched, so no cell is appended to the Body and no tail
is removed.  Proved for every state, hence for every reachable Running
state. -/
theorem C6_wall_collision_terminates (st : GameState) (d : Direction) (s t : Nat)
    (h1 : st.snake.has_collision (nextPoint st d) = false)
    (h2 : st.area.has_collision (nextPoint st d) = true) :
    tick st d s t = TickResult.terminated BreakReason.WallCollision st :=
  tick_of_wall s t h1 h2

/-- Witness for C6: head (9, 5) stepping RIGHT onto the boundary cell
(10, 5) of A0, where x equals to.x. -/
theorem C6_wall_collision_terminates_witness :
    (ST6.snake.has_collision (nextPoint ST6 Direction.RIGHT) = false ∧
      ST6.area.has_collision (nextPoint ST6 Direction.RIGHT) = true) ∧
    tick ST6 Direction.RIGHT 0 0 = TickResult.terminated BreakReason.WallCollision ST6 :=
  ⟨⟨by decide, by decide⟩,
    C6_wall_collision_terminates ST6 Direction.RIGHT 0 0 (by decide) (by decide)⟩

/-- C7: in every reachable state the Body vector has no duplicate cells and
its length equals the cardinality of the Body hash set, and every tick that
keeps running preserves this. -/
theorem C7_body_nodup_and_card (a : GameArea) (st : GameState) (h : Reachable a st) :
    (st.snake.lq.vec.Nodup ∧ st.snake.lq.vec.length = st.snake.lq.hash.card) ∧
    ∀ (d : Direction) (s t : Nat) (st' : GameState),
      tick st d s t = TickResult.running st' →
      st'.snake.lq.vec.Nodup ∧ st'.snake.lq.vec.length = st'.snake.lq.hash.card := by
  obtain ⟨hnd, hh, -, -⟩ := reachable_stateInv h
  refine ⟨⟨hnd, ?_⟩, ?_⟩
  · rw [hh, List.toFinset_card_of_nodup hnd]
  · intro d s t st' htick
    obtain ⟨hnd2, hh2, -, -⟩ := stateInv_step (reachable_stateInv h) htick
    exact ⟨hnd2, by rw [hh2, List.toFinset_card_of_nodup hnd2]⟩

/-- Witness for C7 at the initial state in A0. -/
theorem C7_body_nodup_and_card_witness :
    (((initState A0 0 0).snake.lq.vec.Nodup ∧
      (initState A0 0 0).snake.lq.vec.length = (initState A0 0 0).snake.lq.hash.card) ∧
    ∀ (d : Direction) (s t : Nat) (st' : GameState),
      tick (initState A0 0 0) d s t = TickResult.running st' →
      st'.snake.lq.vec.Nodup ∧ st'.snake.lq.vec.length = st'.snake.lq.hash.card) :=
  C7_body_nodup_and_card A0 (initState A0 0 0) (Reachable.init 0 0)

/-- C8 counterexample: in the 10 by 10 area A0 the cell (9, 5) is strictly
interior in the sense of the claim (from.x+1 ≤ 9 ≤ to.x-1), yet no pair of
rng draws makes spawnFoodPoint return it: gen_range samples the HALF-OPEN
range from.x+1 .. to.x-1, so the x draw never exceeds to.x-2 = 8. -/
theorem C8_interior_cell_never_spawned :
    (A0.«from».1 + 1 ≤ 9 ∧ 9 ≤ A0.«to».1 - 1 ∧
      A0.«from».2 + 1 ≤ 5 ∧ 5 ≤ A0.«to».2 - 1) ∧
    ¬ ∃ s t : Nat, spawnFoodPoint A0 s t = (9, 5) := by
  refine ⟨by decide, ?_⟩
  rintro ⟨s, t, h⟩
  have hx : gen_range (A0.«from».1 + 1) (A0.«to».1 - 1) s = 9 := congrArg Prod.fst h
  simp only [gen_range, A0] at hx
  omega

/-- C8 amended: the spawn support is the half-open interior range: every
cell with from.x+1 ≤ x ≤ to.x-2 and from.y+1 ≤ y ≤ to.y-2 is returned by
spawnFoodPoint for some pair of rng draws (the interior cells on the
maximal interior column x = to.x-1 and row y = to.y-1 are never
returned). -/
theorem C8_spawn_covers_halfopen_range (a : GameArea) (x y : Nat)
    (hx1 : a.«from».1 + 1 ≤ x) (hx2 : x + 2 ≤ a.«to».1)
    (hy1 : a.«from».2 + 1 ≤ y) (hy2 : y + 2 ≤ a.«to».2) :
    ∃ s t : Nat, spawnFoodPoint a s t = (x, y) := by
  refine ⟨x - (a.«from».1 + 1), y - (a.«from».2 + 1), ?_⟩
  unfold spawnFoodPoint gen_range
  have h1 : x - (a.«from».1 + 1) < a.«to».1 - 1 - (a.«from».1 + 1) := by omega
  have h2 : y - (a.«from».2 + 1) < a.«to».2 - 1 - (a.«from».2 + 1) := by omega
  rw [Nat.mod_eq_of_lt h1, Nat.mod_eq_of_lt h2]
  simp only [Prod.mk.injEq]
  constructor
  · omega
  · omega

/-- Witness for the amended C8: the cell (5, 6) of A0. -/
theorem C8_spawn_covers_halfopen_range_witness :
    (A0.«from».1 + 1 ≤ 5 ∧ 5 + 2 ≤ A0.«to».1 ∧
      A0.«from».2 + 1 ≤ 6 ∧ 6 + 2 ≤ A0.«to».2) ∧
    ∃ s t : Nat, spawnFoodPoint A0 s t = (5, 6) :=
  ⟨⟨by decide, by decide, by decide, by decide⟩,
    C8_spawn_covers_halfopen_range A0 5 6 (by decide) (by decide) (by decide) (by decide)⟩

/-- C9: in every reachable state the Body vector is nonempty, so the head
query returns some cell and the unwrap_or fallback at main.rs line 219
never fires. -/
theorem C9_body_nonempty (a : GameArea) (st : GameState) (h : Reachable a st) :
    1 ≤ st.snake.lq.vec.length ∧ st.snake.lq.head.isSome = true := by
  obtain ⟨-, -, hne, -⟩ := reachable_stateInv h
  refine ⟨List.length_pos.mpr hne, ?_⟩
  cases hv : st.snake.lq.vec with
  | nil => exact absurd hv hne
  | cons b l2 => simp [LookupPointQueue.head, hv]

/-- Witness for C9 at the initial state in A0. -/
theorem C9_body_nonempty_witness :
    1 ≤ (initState A0 0 0).snake.lq.vec.length ∧
    (initState A0 0 0).snake.lq.head.isSome = true :=
  C9_body_nonempty A0 (initState A0 0 0) (Reachable.init 0 0)

/-- C10: in every reachable state the Food holds exactly one cell: its
vector has length one and its hash set has cardinality one. -/
theorem C10_food_single_cell (a : GameArea) (st : GameState) (h : Reachable a st) :
    st.food.lq.vec.length = 1 ∧ st.food.lq.hash.card = 1 := by
  obtain ⟨-, -, -, c, hfv, hfh⟩ := reachable_stateInv h
  rw [hfv, hfh]
  exact ⟨rfl, Finset.card_singleton c⟩

/-- Witness for C10 at the initial state in A0. -/
theorem C10_food_single_cell_witness :
    (initState A0 0 0).food.lq.vec.length = 1 ∧
    (initState A0 0 0).food.lq.hash.card = 1 :=
  C10_food_single_cell A0 (initState A0 0 0) (Reachable.init 0 0)
